import Mathlib

/-!
Shallow embedding of the device-binding synchronization layer of
nodejs-poolController, i.e. `src/controller/nixie/circuits/Circuit.ts`
(classes `NixieCircuitCollection` and `NixieCircuit`), together with the
small external shapes it consumes (device-service responses, equipment
config entries, live circuit state).  Asynchronous TypeScript methods are
embedded as pure functions: mutation of `cstate`/the collection becomes
explicit value passing, a promise that can reject becomes `Except String`,
an `async` function that resolves with `undefined` returns `Unit` or
`Option _`, and the outcome of an external network call is passed in as an
explicit oracle argument.
-/

set_option linter.unusedVariables false

/-- Modelled from the spec: the status part of a device-service response,
`{status: {code:int, message:string}}` (the `InterfaceServerResponse` class
lives in `web/Server.ts`, which is not under `src/`). -/
structure ServerStatus where
  code : Int
  message : String
deriving Repr, DecidableEq

/-- Modelled from the spec: an `InterfaceServerResponse` carries a status
(code and message); the body plays no role in the embedded code paths. -/
structure InterfaceServerResponse where
  status : ServerStatus
deriving Repr, DecidableEq

/-- The two-argument constructor form `new InterfaceServerResponse(code, msg)`
used at `Circuit.ts:104`. -/
def InterfaceServerResponse.make (code : Int) (message : String) : InterfaceServerResponse :=
  ⟨⟨code, message⟩⟩

/-- An equipment config entry (`Circuit` from `controller/Equipment`), with the
fields read by `Circuit.ts`: id, name, master flag, optional binding pair.
An absent (`undefined`) string field is `none`. -/
structure Circuit where
  id : Int
  name : String
  master : Int
  connectionId : Option String
  deviceBinding : Option String
deriving Repr, DecidableEq

/-- The live state of one circuit (`ICircuitState`/`CircuitState` from
`controller/State`), with the fields `Circuit.ts` reads or writes. -/
structure ICircuitState where
  id : Int
  name : String
  isOn : Bool
  commStatus : Int
deriving Repr, DecidableEq

/-- Modelled from the spec: `utils.isNullOrEmpty` (from `controller/Constants`,
not under `src/`), true for an absent or empty string. -/
def isNullOrEmpty : Option String → Bool
  | none => true
  | some s => s == ""

/-- The bound-check expression of `Circuit.ts:119-120`:
`typeof x !== 'undefined' && x !== ''`. -/
def definedAndNonEmpty : Option String → Bool
  | none => false
  | some s => !(s == "")

/-- The body of the device PUT issued at `Circuit.ts:106`:
`{ isOn: val, latch: val ? 7000 : undefined }`. -/
structure PutBody where
  isOn : Bool
  latch : Option Int
deriving Repr, DecidableEq

/-- Oracle for `NixieEquipment.putDeviceService`: given connection id, path and
body, the device call either resolves with a response or rejects. -/
def PutService : Type := String → String → PutBody → Except String InterfaceServerResponse

/-- Modelled from the spec: the shape returned by `GET /status/device/...`,
`checkHardwareStatus() -> {hasFault: bool}`. -/
structure DeviceStatus where
  hasFault : Bool
deriving Repr, DecidableEq

/-- Oracle for one `NixieEquipment.getDeviceService` status call: it either
resolves with a device status or rejects. -/
def GetOutcome : Type := Except String DeviceStatus

/-- A `NixieCircuit` wraps one config entry (`Circuit.ts:86-91`); the control
panel back-reference is used only for logging and is omitted. -/
structure NixieCircuit where
  circuit : Circuit
deriving Repr, DecidableEq

/-- The `id` getter (`Circuit.ts:92`); `circuit` is always set by the
constructor, so the `undefined` guard branch (`-1`) is unreachable. -/
def NixieCircuit.id (c : NixieCircuit) : Int := c.circuit.id

/-- Embedding of `NixieCircuit.setCircuitStateAsync` (`Circuit.ts:99-110`).  Returns the
updated live state together with the resolved value: `some res` when the
function returns a response, `none` when the catch block swallows an error and
the function resolves with `undefined`.  The device call outcome is supplied
by the `put` oracle. -/
def NixieCircuit.setCircuitStateAsync (put : PutService) (c : NixieCircuit)
    (cstate : ICircuitState) (val : Bool) : ICircuitState × Option InterfaceServerResponse :=
  if isNullOrEmpty c.circuit.connectionId || isNullOrEmpty c.circuit.deviceBinding then
    ({ cstate with isOn := val }, some (InterfaceServerResponse.make 200 "Success"))
  else
    match put (c.circuit.connectionId.getD (""))
        ("/state/device/" ++ c.circuit.deviceBinding.getD (""))
        { isOn := val, latch := if val then some 7000 else none } with
    | .ok res =>
        (if res.status.code == 200 then { cstate with isOn := val } else cstate, some res)
    | .error _ => (cstate, none)

/-- The device call made by `setCircuitStateAsync` on the bound path, named so
the theorems can talk about its outcome. -/
def NixieCircuit.stateDeviceCall (put : PutService) (c : NixieCircuit) (val : Bool) :
    Except String InterfaceServerResponse :=
  put (c.circuit.connectionId.getD (""))
    ("/state/device/" ++ c.circuit.deviceBinding.getD (""))
    { isOn := val, latch := if val then some 7000 else none }

/-- The virtual/bound test of `Circuit.ts:102`: a unit is virtual when either
binding field is absent or empty. -/
def NixieCircuit.isVirtual (c : NixieCircuit) : Bool :=
  isNullOrEmpty c.circuit.connectionId || isNullOrEmpty c.circuit.deviceBinding

/-- C1: `setCircuitStateAsync` on a virtual unit sets `isOn := val` and returns
a 200 success; on a bound unit it sets `isOn := val` exactly when the device
responded 200, keeps the prior state on a non-200 response or a rejected call,
and resolves with the device response (`some res`) or, on a rejection, with
`undefined` (`none`), reflecting the failure. -/
theorem circuit_setCircuitState_spec (put : PutService) (c : NixieCircuit)
    (cstate : ICircuitState) (val : Bool) :
    (c.isVirtual = true →
      NixieCircuit.setCircuitStateAsync put c cstate val =
        ({ cstate with isOn := val }, some (InterfaceServerResponse.make 200 "Success"))) ∧
    (c.isVirtual = false →
      (∀ res, NixieCircuit.stateDeviceCall put c val = .ok res →
        NixieCircuit.setCircuitStateAsync put c cstate val =
          ((if res.status.code == 200 then { cstate with isOn := val } else cstate), some res)) ∧
      (∀ e, NixieCircuit.stateDeviceCall put c val = .error e →
        NixieCircuit.setCircuitStateAsync put c cstate val = (cstate, none))) := by
  unfold NixieCircuit.setCircuitStateAsync NixieCircuit.stateDeviceCall NixieCircuit.isVirtual
  refine ⟨?_, ?_⟩
  · intro hv
    simp [hv]
  · intro hv
    simp only [Bool.or_eq_false_iff] at hv
    refine ⟨?_, ?_⟩
    · intro res hres
      simp [hv.1, hv.2, hres]
    · intro e he
      simp [hv.1, hv.2, he]

/-- Witness for C1: a concrete virtual unit commits `isOn := true` with a 200
result; a concrete bound unit against a 500-responding device keeps
`isOn = false` and returns the 500 response; the same bound unit against a
rejecting device keeps `isOn = false` and resolves with `undefined`. -/
theorem circuit_setCircuitState_spec_witness :
    (NixieCircuit.setCircuitStateAsync (fun _ _ _ => .error ("down"))
        ⟨⟨1, "Pool", 1, none, none⟩⟩ ⟨1, "Pool", false, 0⟩ true =
      ({ id := 1, name := "Pool", isOn := true, commStatus := 0 },
        some (InterfaceServerResponse.make 200 "Success"))) ∧
    (NixieCircuit.setCircuitStateAsync (fun _ _ _ => .ok (InterfaceServerResponse.make 500 "Err"))
        ⟨⟨2, "Spa", 1, some "c1", some "b1"⟩⟩ ⟨2, "Spa", false, 0⟩ true =
      (⟨2, "Spa", false, 0⟩, some (InterfaceServerResponse.make 500 "Err"))) ∧
    (NixieCircuit.setCircuitStateAsync (fun _ _ _ => .error ("down"))
        ⟨⟨2, "Spa", 1, some "c1", some "b1"⟩⟩ ⟨2, "Spa", false, 0⟩ true =
      (⟨2, "Spa", false, 0⟩, none)) := by
  refine ⟨?_, ?_, ?_⟩
  · exact (circuit_setCircuitState_spec (fun _ _ _ => .error ("down"))
      ⟨⟨1, "Pool", 1, none, none⟩⟩ ⟨1, "Pool", false, 0⟩ true).1 (by decide)
  · have h := ((circuit_setCircuitState_spec
        (fun _ _ _ => .ok (InterfaceServerResponse.make 500 "Err"))
        ⟨⟨2, "Spa", 1, some "c1", some "b1"⟩⟩ ⟨2, "Spa", false, 0⟩ true).2 (by decide)).1
      (InterfaceServerResponse.make 500 "Err") rfl
    simpa using h
  · exact ((circuit_setCircuitState_spec (fun _ _ _ => .error ("down"))
        ⟨⟨2, "Spa", 1, some "c1", some "b1"⟩⟩ ⟨2, "Spa", false, 0⟩ true).2 (by decide)).2
      "down" rfl

/-- Embedding of `NixieCircuit.checkHardwareStatusAsync` (`Circuit.ts:111-116`): forwards a
successful `GET /status/device/...` result and maps any rejection to
`{hasFault: true}`; it never rejects itself. -/
def NixieCircuit.checkHardwareStatusAsync (get : GetOutcome) : DeviceStatus :=
  match get with
  | .ok dev => dev
  | .error _ => { hasFault := true }

/-- Embedding of `NixieCircuit.validateSetupAsync` (`Circuit.ts:117-131`): on a bound unit
(both binding fields defined and non-empty) it sets `commStatus` from the
hardware check (`1` on fault, else `0`); on an unbound unit it sets
`commStatus := 0`.  `checkHardwareStatusAsync` never throws, so the inner and
outer catch branches (`commStatus := 1`) are unreachable and the function
always resolves. -/
def NixieCircuit.validateSetupAsync (get : GetOutcome) (circuit : Circuit)
    (cstate : ICircuitState) : ICircuitState :=
  if definedAndNonEmpty circuit.connectionId && definedAndNonEmpty circuit.deviceBinding then
    let stat := NixieCircuit.checkHardwareStatusAsync get
    { cstate with commStatus := if stat.hasFault then 1 else 0 }
  else
    { cstate with commStatus := 0 }

/-- The bound test of `validateSetupAsync` (`Circuit.ts:119-120`), named for
the theorems. -/
def Circuit.isBound (circuit : Circuit) : Bool :=
  definedAndNonEmpty circuit.connectionId && definedAndNonEmpty circuit.deviceBinding

/-- C3: after `validateSetupAsync`, whatever the prior `commStatus`: an unbound
unit has `commStatus = 0`; a bound unit whose status call rejected or reported
a fault has `commStatus = 1`; a bound unit with a clean, fault-free check has
`commStatus = 0`. -/
theorem circuit_validateSetup_spec (get : GetOutcome) (circuit : Circuit)
    (cstate : ICircuitState) :
    (circuit.isBound = false →
      (NixieCircuit.validateSetupAsync get circuit cstate).commStatus = 0) ∧
    (circuit.isBound = true →
      (((∃ e, get = .error e) ∨ get = .ok { hasFault := true }) →
        (NixieCircuit.validateSetupAsync get circuit cstate).commStatus = 1) ∧
      (get = .ok { hasFault := false } →
        (NixieCircuit.validateSetupAsync get circuit cstate).commStatus = 0)) := by
  unfold NixieCircuit.validateSetupAsync Circuit.isBound NixieCircuit.checkHardwareStatusAsync
  refine ⟨?_, ?_⟩
  · intro hb
    simp [hb]
  · intro hb
    refine ⟨?_, ?_⟩
    · rintro (⟨e, he⟩ | hok) <;> simp [hb, *]
    · intro hok
      simp [hb, hok]

/-- Witness for C3: a virtual unit keeps `commStatus = 0` even from a prior
fault; a bound unit whose check rejects gets `commStatus = 1`; a bound unit
reporting a fault gets `1`; a bound, fault-free check gets `0`. -/
theorem circuit_validateSetup_spec_witness :
    (NixieCircuit.validateSetupAsync (.error ("down")) ⟨1, "Pool", 1, none, none⟩
      ⟨1, "Pool", false, 1⟩).commStatus = 0 ∧
    (NixieCircuit.validateSetupAsync (.error ("down")) ⟨2, "Spa", 1, some "c1", some "b1"⟩
      ⟨2, "Spa", false, 0⟩).commStatus = 1 ∧
    (NixieCircuit.validateSetupAsync (.ok { hasFault := true })
      ⟨2, "Spa", 1, some "c1", some "b1"⟩ ⟨2, "Spa", false, 0⟩).commStatus = 1 ∧
    (NixieCircuit.validateSetupAsync (.ok { hasFault := false })
      ⟨2, "Spa", 1, some "c1", some "b1"⟩ ⟨2, "Spa", false, 1⟩).commStatus = 0 := by
  refine ⟨?_, ?_, ?_, ?_⟩
  · exact (circuit_validateSetup_spec (.error ("down")) ⟨1, "Pool", 1, none, none⟩
      ⟨1, "Pool", false, 1⟩).1 (by decide)
  · exact ((circuit_validateSetup_spec (.error ("down")) ⟨2, "Spa", 1, some "c1", some "b1"⟩
      ⟨2, "Spa", false, 0⟩).2 (by decide)).1 (Or.inl ⟨"down", rfl⟩)
  · exact ((circuit_validateSetup_spec (.ok { hasFault := true })
      ⟨2, "Spa", 1, some "c1", some "b1"⟩ ⟨2, "Spa", false, 0⟩).2 (by decide)).1 (Or.inr rfl)
  · exact ((circuit_validateSetup_spec (.ok { hasFault := false })
      ⟨2, "Spa", 1, some "c1", some "b1"⟩ ⟨2, "Spa", false, 1⟩).2 (by decide)).2 rfl

/-- Embedding of `NixieCircuit.setCircuitAsync` (`Circuit.ts:93-98`), the per-unit update
hook: its body only reads `this.circuit` into a local and ignores `data`, so
it performs no mutation and always resolves; the unit is returned unchanged. -/
def NixieCircuit.setCircuitAsync {α : Type} (c : NixieCircuit) (data : α) : NixieCircuit :=
  c

/-- Embedding of `NixieCircuit.closeAsync` (`Circuit.ts:132-138`): looks the live state up
in the external store (outcome passed as the `lookup` oracle), then forces
`setCircuitStateAsync(cstate, false)`.  On a lookup error the catch block logs
and returns `Promise.reject(err)`, so the error is re-raised; on success the
function resolves (`setCircuitStateAsync` itself never rejects).  Returns the
final live state (if the lookup produced one) and the resolution outcome. -/
def NixieCircuit.closeAsync (put : PutService) (lookup : Except String ICircuitState)
    (c : NixieCircuit) : Option ICircuitState × Except String Unit :=
  match lookup with
  | .ok cstate => (some (NixieCircuit.setCircuitStateAsync put c cstate false).1, .ok ())
  | .error e => (none, .error e)

/-- Counterexample for C7: with a live-state lookup that rejects, a concrete
unit's `closeAsync` rejects toward its caller (the catch block ends in
`return Promise.reject(err)`), so "close never rejects" is false. -/
theorem circuit_close_rejects_counterexample :
    (NixieCircuit.closeAsync (fun _ _ _ => .error ("down")) (.error ("boom"))
      ⟨⟨1, "Pool", 1, none, none⟩⟩).2 = .error ("boom") := by
  rfl

/-- C7 (amended): whenever the live-state lookup succeeds, `closeAsync`
invokes `setCircuitStateAsync` with `false` (whose own errors are swallowed,
so close then resolves); a lookup error is logged and re-rejected toward the
caller rather than swallowed. -/
theorem circuit_close_spec (put : PutService) (lookup : Except String ICircuitState)
    (c : NixieCircuit) :
    (∀ cstate, lookup = .ok cstate →
      NixieCircuit.closeAsync put lookup c =
        (some (NixieCircuit.setCircuitStateAsync put c cstate false).1, .ok ())) ∧
    (∀ e, lookup = .error e →
      NixieCircuit.closeAsync put lookup c = (none, .error e)) := by
  constructor
  · intro cstate h
    simp [NixieCircuit.closeAsync, h]
  · intro e h
    simp [NixieCircuit.closeAsync, h]

/-- Witness for C7 (amended): a successful lookup on a virtual unit turns it
off and resolves; a failing lookup is re-rejected. -/
theorem circuit_close_spec_witness :
    (NixieCircuit.closeAsync (fun _ _ _ => .error ("down")) (.ok ⟨1, "Pool", true, 0⟩)
        ⟨⟨1, "Pool", 1, none, none⟩⟩ =
      (some { id := 1, name := "Pool", isOn := false, commStatus := 0 }, .ok ())) ∧
    (NixieCircuit.closeAsync (fun _ _ _ => .error ("down")) (.error ("boom"))
        ⟨⟨1, "Pool", 1, none, none⟩⟩ = (none, .error ("boom"))) := by
  constructor
  · have h := (circuit_close_spec (fun _ _ _ => .error ("down")) (.ok ⟨1, "Pool", true, 0⟩)
      ⟨⟨1, "Pool", 1, none, none⟩⟩).1 ⟨1, "Pool", true, 0⟩ rfl
    simpa using h
  · exact (circuit_close_spec (fun _ _ _ => .error ("down")) (.error ("boom"))
      ⟨⟨1, "Pool", 1, none, none⟩⟩).2 ("boom") rfl

/-- Modelled from the spec: a `NixieEquipmentCollection` is an ordered
sequence of units (the array-derived base class in `NixieEquipment.ts` is not
under `src/`; the spec calls it an ordered registry keyed by id). -/
abbrev NixieCircuitCollection : Type := List NixieCircuit

/-- The lookup `this.find(elem => elem.id === x.id)` used throughout
`NixieCircuitCollection`. -/
def NixieCircuitCollection.findById (l : NixieCircuitCollection) (i : Int) :
    Option NixieCircuit :=
  l.find? (fun e => e.id == i)

/-- Embedding of `NixieCircuitCollection.setCircuitStateAsync` (`Circuit.ts:15-22`).
If no unit has `cstate.id`, the function returns the rejected promise built at
line 18 (this `return Promise.reject(...)` inside `try` is not intercepted by
the `catch`, which only guards the `await`).  Otherwise it awaits the found
unit's `setCircuitStateAsync` — which never rejects — and then resolves with
`undefined` (`Except.ok none`): the unit's response is not returned.  Result:
(collection, live state, resolution). -/
def NixieCircuitCollection.setCircuitStateAsync (put : PutService)
    (l : NixieCircuitCollection) (cstate : ICircuitState) (val : Bool) :
    NixieCircuitCollection × ICircuitState × Except String (Option InterfaceServerResponse) :=
  match l.findById cstate.id with
  | none =>
      (l, cstate, .error ("NCP: Circuit " ++ toString cstate.id ++ "-" ++ cstate.name ++
        " could not be found to set the state to " ++ toString val ++ "."))
  | some c =>
      (l, (NixieCircuit.setCircuitStateAsync put c cstate val).1, .ok none)

/-- Embedding of `NixieCircuitCollection.setCircuitAsync` (`Circuit.ts:23-39`): if no unit
has the config's id, it force-sets `circuit.master = 1`, constructs a unit,
appends it and runs its create hook; otherwise it runs the update hook on the
found unit (both hooks are `NixieCircuit.setCircuitAsync`, a no-op). -/
def NixieCircuitCollection.setCircuitAsync {α : Type} (l : NixieCircuitCollection)
    (circuit : Circuit) (data : α) : NixieCircuitCollection :=
  match l.findById circuit.id with
  | none =>
      l ++ [NixieCircuit.setCircuitAsync ⟨{ circuit with master := 1 }⟩ data]
  | some _ =>
      l.map (fun e => if e.id == circuit.id then NixieCircuit.setCircuitAsync e data else e)

/-- Embedding of `NixieCircuitCollection.initCircuitAsync` (`Circuit.ts:66-75`): returns the
unit with the config's id, constructing and appending one from the config as
given (no `master` adjustment) when absent. -/
def NixieCircuitCollection.initCircuitAsync (l : NixieCircuitCollection)
    (circuit : Circuit) : NixieCircuitCollection × NixieCircuit :=
  match l.findById circuit.id with
  | none => (l ++ [⟨circuit⟩], ⟨circuit⟩)
  | some c => (l, c)

/-- Embedding of `NixieCircuitCollection.initAsync` (`Circuit.ts:40-53`): clears the
collection (`this.length = 0`, discarding `prior`), then walks the config
entries in order, appending a new unit for each entry whose `master === 1`. -/
def NixieCircuitCollection.initAsync (prior : NixieCircuitCollection)
    (circuits : List Circuit) : NixieCircuitCollection :=
  let cleared : NixieCircuitCollection := []
  circuits.foldl (fun acc c => if c.master == 1 then acc ++ [⟨c⟩] else acc) cleared

/-- Counterexample for C2: on a collection holding one virtual unit with id 1,
the unit's `setCircuitStateAsync` resolves with the 200 response, but the
collection's `setCircuitStateAsync` resolves with `undefined` (`.ok none`):
the unit's result is awaited and then discarded, not propagated. -/
theorem collection_setState_drops_result_counterexample :
    (NixieCircuit.setCircuitStateAsync (fun _ _ _ => .error ("down"))
        ⟨⟨1, "Pool", 1, none, none⟩⟩ ⟨1, "Pool", false, 0⟩ true).2 =
      some (InterfaceServerResponse.make 200 "Success") ∧
    (NixieCircuitCollection.setCircuitStateAsync (fun _ _ _ => .error ("down"))
        [⟨⟨1, "Pool", 1, none, none⟩⟩] ⟨1, "Pool", false, 0⟩ true).2.2 =
      .ok none ∧
    (Except.ok none : Except String (Option InterfaceServerResponse)) ≠
      .ok (some (InterfaceServerResponse.make 200 "Success")) := by
  refine ⟨rfl, rfl, by simp⟩

/-- C2 (amended): when no unit carries `cstate.id`, the collection call rejects
with the line-18 `Error`, whose message names the id, the unit name and the
desired value; when a unit is found, the call applies that unit's
`setCircuitStateAsync` state effect but resolves with `undefined`, discarding
the unit's response. -/
theorem collection_setState_spec (put : PutService) (l : NixieCircuitCollection)
    (cstate : ICircuitState) (val : Bool) :
    (l.findById cstate.id = none →
      NixieCircuitCollection.setCircuitStateAsync put l cstate val =
        (l, cstate, .error ("NCP: Circuit " ++ toString cstate.id ++ "-" ++ cstate.name ++
          " could not be found to set the state to " ++ toString val ++ "."))) ∧
    (∀ c, l.findById cstate.id = some c →
      NixieCircuitCollection.setCircuitStateAsync put l cstate val =
        (l, (NixieCircuit.setCircuitStateAsync put c cstate val).1, .ok none)) := by
  constructor
  · intro h
    simp [NixieCircuitCollection.setCircuitStateAsync, h]
  · intro c h
    simp [NixieCircuitCollection.setCircuitStateAsync, h]

/-- Witness for C2 (amended): on the empty collection the call rejects with
the message naming id 5 and desired value true; on a one-unit collection it
commits the unit's state change and resolves with `undefined`. -/
theorem collection_setState_spec_witness :
    (NixieCircuitCollection.setCircuitStateAsync (fun _ _ _ => .error ("down"))
        [] ⟨5, "Spa", false, 0⟩ true =
      ([], ⟨5, "Spa", false, 0⟩,
        .error ("NCP: Circuit 5-Spa could not be found to set the state to true."))) ∧
    (NixieCircuitCollection.setCircuitStateAsync (fun _ _ _ => .error ("down"))
        [⟨⟨1, "Pool", 1, none, none⟩⟩] ⟨1, "Pool", false, 0⟩ true =
      ([⟨⟨1, "Pool", 1, none, none⟩⟩],
        { id := 1, name := "Pool", isOn := true, commStatus := 0 }, .ok none)) := by
  constructor
  · have h := (collection_setState_spec (fun _ _ _ => .error ("down"))
      [] ⟨5, "Spa", false, 0⟩ true).1 rfl
    simpa using h
  · have h := (collection_setState_spec (fun _ _ _ => .error ("down"))
      [⟨⟨1, "Pool", 1, none, none⟩⟩] ⟨1, "Pool", false, 0⟩ true).2
      ⟨⟨1, "Pool", 1, none, none⟩⟩ rfl
    simpa [NixieCircuit.setCircuitStateAsync, isNullOrEmpty] using h

/-- C10: the per-unit update hook `NixieCircuit.setCircuitAsync` ignores its
`data` argument and leaves the unit unchanged, and the update path of the
collection's `setCircuitAsync` (an existing unit for the id) leaves the whole
collection unchanged. -/
theorem circuit_update_hook_noop :
    (∀ (α : Type) (c : NixieCircuit) (d : α), NixieCircuit.setCircuitAsync c d = c) ∧
    (∀ (α : Type) (l : NixieCircuitCollection) (circuit : Circuit) (d : α),
      (l.findById circuit.id).isSome = true →
      NixieCircuitCollection.setCircuitAsync l circuit d = l) := by
  constructor
  · intro α c d
    rfl
  · intro α l circuit d h
    unfold NixieCircuitCollection.setCircuitAsync
    cases hf : l.findById circuit.id with
    | none => rw [hf] at h; simp at h
    | some c =>
        simp [NixieCircuit.setCircuitAsync]

/-- Witness for C10: on a one-unit collection, updating the existing id 1 with
concrete data changes nothing. -/
theorem circuit_update_hook_noop_witness :
    NixieCircuit.setCircuitAsync ⟨⟨1, "Pool", 1, none, none⟩⟩ (37 : Nat) =
      ⟨⟨1, "Pool", 1, none, none⟩⟩ ∧
    NixieCircuitCollection.setCircuitAsync [⟨⟨1, "Pool", 1, none, none⟩⟩]
      ⟨1, "Pool", 0, none, none⟩ (37 : Nat) = [⟨⟨1, "Pool", 1, none, none⟩⟩] := by
  constructor
  · exact circuit_update_hook_noop.1 Nat ⟨⟨1, "Pool", 1, none, none⟩⟩ 37
  · exact circuit_update_hook_noop.2 Nat [⟨⟨1, "Pool", 1, none, none⟩⟩]
      ⟨1, "Pool", 0, none, none⟩ 37 (by decide)

/-- The number of units in the collection carrying a given id. -/
def NixieCircuitCollection.countId (l : NixieCircuitCollection) (i : Int) : Nat :=
  l.countP (fun e => e.id == i)

/-- A missing lookup means no unit carries the id. -/
theorem countId_eq_zero_of_findById_none (l : NixieCircuitCollection) (i : Int)
    (h : l.findById i = none) : l.countId i = 0 := by
  unfold NixieCircuitCollection.findById at h
  unfold NixieCircuitCollection.countId
  rw [List.countP_eq_zero]
  intro a ha
  have := List.find?_eq_none.mp h a ha
  simpa using this

/-- A successful lookup means at least one unit carries the id. -/
theorem countId_pos_of_findById_some (l : NixieCircuitCollection) (i : Int)
    (c : NixieCircuit) (h : l.findById i = some c) : 0 < l.countId i := by
  unfold NixieCircuitCollection.findById at h
  unfold NixieCircuitCollection.countId
  rw [List.countP_pos_iff]
  have hp := List.find?_some h
  exact ⟨c, List.mem_of_find?_eq_some h, by simpa using hp⟩

/-- After one `setCircuitAsync`, the id occurs exactly once (from at most
once before). -/
theorem setCircuitAsync_countId {α : Type} (l : NixieCircuitCollection)
    (circuit : Circuit) (d : α) (h : l.countId circuit.id ≤ 1) :
    (NixieCircuitCollection.setCircuitAsync l circuit d).countId circuit.id = 1 := by
  unfold NixieCircuitCollection.setCircuitAsync
  cases hf : l.findById circuit.id with
  | none =>
      have h0 := countId_eq_zero_of_findById_none l circuit.id hf
      unfold NixieCircuitCollection.countId at h0 ⊢
      rw [List.countP_append, h0]
      simp [NixieCircuit.setCircuitAsync, NixieCircuit.id]
  | some c =>
      have hpos := countId_pos_of_findById_some l circuit.id c hf
      have h1 : l.countId circuit.id = 1 := le_antisymm h hpos
      simpa [NixieCircuit.setCircuitAsync] using h1

/-- After one `initCircuitAsync`, the id occurs exactly once (from at most
once before). -/
theorem initCircuitAsync_countId (l : NixieCircuitCollection)
    (circuit : Circuit) (h : l.countId circuit.id ≤ 1) :
    (NixieCircuitCollection.initCircuitAsync l circuit).1.countId circuit.id = 1 := by
  unfold NixieCircuitCollection.initCircuitAsync
  cases hf : l.findById circuit.id with
  | none =>
      have h0 := countId_eq_zero_of_findById_none l circuit.id hf
      unfold NixieCircuitCollection.countId at h0 ⊢
      rw [List.countP_append, h0]
      simp [NixieCircuit.id]
  | some c =>
      have hpos := countId_pos_of_findById_some l circuit.id c hf
      exact le_antisymm h hpos

/-- C9: starting from a collection holding the id at most once, two successive
calls of either create path with the same id leave exactly one unit with that
id: the second call finds the existing unit instead of appending a duplicate. -/
theorem createPaths_idempotent {α : Type} (l : NixieCircuitCollection)
    (circuit circuit2 : Circuit) (d d2 : α) (hid : circuit2.id = circuit.id)
    (h : l.countId circuit.id ≤ 1) :
    (NixieCircuitCollection.setCircuitAsync
        (NixieCircuitCollection.setCircuitAsync l circuit d) circuit2 d2).countId circuit.id
      = 1 ∧
    ((NixieCircuitCollection.initCircuitAsync
        (NixieCircuitCollection.initCircuitAsync l circuit).1 circuit2).1).countId circuit.id
      = 1 := by
  constructor
  · have h1 := setCircuitAsync_countId l circuit d h
    have h2 := setCircuitAsync_countId (NixieCircuitCollection.setCircuitAsync l circuit d)
      circuit2 d2 (by rw [hid]; exact le_of_eq h1)
    rwa [hid] at h2
  · have h1 := initCircuitAsync_countId l circuit h
    have h2 := initCircuitAsync_countId (NixieCircuitCollection.initCircuitAsync l circuit).1
      circuit2 (by rw [hid]; exact le_of_eq h1)
    rwa [hid] at h2

/-- Witness for C9: from the empty collection, creating id 7 twice through
either path leaves exactly one unit with id 7. -/
theorem createPaths_idempotent_witness :
    (NixieCircuitCollection.setCircuitAsync
        (NixieCircuitCollection.setCircuitAsync [] ⟨7, "Jet", 0, none, none⟩ (0 : Nat))
        ⟨7, "Jet2", 0, none, none⟩ (1 : Nat)).countId 7 = 1 ∧
    ((NixieCircuitCollection.initCircuitAsync
        (NixieCircuitCollection.initCircuitAsync [] ⟨7, "Jet", 0, none, none⟩).1
        ⟨7, "Jet2", 0, none, none⟩).1).countId 7 = 1 :=
  createPaths_idempotent [] ⟨7, "Jet", 0, none, none⟩ ⟨7, "Jet2", 0, none, none⟩
    0 1 (by decide) (by decide)

/-- Unfolding lemma for `initAsync`: the fold appends exactly the
master-flagged entries, in order. -/
theorem initAsync_foldl_eq (circuits : List Circuit) (acc : List NixieCircuit) :
    circuits.foldl (fun acc c => if c.master == 1 then acc ++ [⟨c⟩] else acc) acc =
      acc ++ (circuits.filter (fun c => c.master == 1)).map (fun c => ⟨c⟩) := by
  induction circuits generalizing acc with
  | nil => simp
  | cons c cs ih =>
      rw [List.foldl_cons, List.filter_cons]
      by_cases hm : (c.master == 1) = true
      · rw [if_pos hm, ih, hm]
        simp
      · rw [if_neg hm, ih, Bool.of_not_eq_true hm]
        simp

/-- Counterexample for C4: `initCircuitAsync` appends the config as given, so
an entry with `master = 0` enters the collection un-promoted; the claimed
force-set of `master = 1` on this create path does not happen. -/
theorem initCircuit_master_counterexample :
    (NixieCircuitCollection.initCircuitAsync [] ⟨4, "Blower", 0, none, none⟩).1 =
      [⟨⟨4, "Blower", 0, none, none⟩⟩] ∧
    (NixieCircuit.mk ⟨4, "Blower", 0, none, none⟩).circuit.master ≠ 1 := by
  exact ⟨rfl, by decide⟩

/-- C4 (amended): `initAsync` instantiates only `master = 1` entries, and
`setCircuitAsync`'s create path force-sets `master := 1`, so both preserve the
all-master invariant; `initCircuitAsync` appends its config unchanged, so it
preserves the invariant only when the given config already has `master = 1`. -/
theorem master_invariant (α : Type) (prior : NixieCircuitCollection)
    (circuits : List Circuit)
    (l : NixieCircuitCollection) (circuit : Circuit) (d : α) :
    (∀ e ∈ NixieCircuitCollection.initAsync prior circuits, e.circuit.master = 1) ∧
    ((∀ e ∈ l, e.circuit.master = 1) →
      ∀ e ∈ NixieCircuitCollection.setCircuitAsync l circuit d, e.circuit.master = 1) ∧
    (circuit.master = 1 → (∀ e ∈ l, e.circuit.master = 1) →
      ∀ e ∈ (NixieCircuitCollection.initCircuitAsync l circuit).1, e.circuit.master = 1) := by
  refine ⟨?_, ?_, ?_⟩
  · intro e he
    unfold NixieCircuitCollection.initAsync at he
    rw [initAsync_foldl_eq] at he
    rw [List.nil_append] at he
    obtain ⟨c, hc, rfl⟩ := List.mem_map.mp he
    have := (List.mem_filter.mp hc).2
    simpa using this
  · intro hl e he
    unfold NixieCircuitCollection.setCircuitAsync at he
    cases hf : l.findById circuit.id with
    | none =>
        rw [hf] at he
        rcases List.mem_append.mp he with h | h
        · exact hl e h
        · simp only [List.mem_singleton] at h
          subst h
          rfl
    | some c =>
        rw [hf] at he
        obtain ⟨x, hx, rfl⟩ := List.mem_map.mp he
        by_cases hid : (x.id == circuit.id) = true
        · rw [if_pos hid]
          exact hl x hx
        · rw [if_neg hid]
          exact hl x hx
  · intro hm hl e he
    unfold NixieCircuitCollection.initCircuitAsync at he
    cases hf : l.findById circuit.id with
    | none =>
        rw [hf] at he
        rcases List.mem_append.mp he with h | h
        · exact hl e h
        · simp only [List.mem_singleton] at h
          subst h
          exact hm
    | some c =>
        rw [hf] at he
        exact hl e he

/-- Witness for C4 (amended): a mixed config list yields only master units;
creating a fresh id through `setCircuitAsync` keeps the invariant; creating a
master-flagged fresh id through `initCircuitAsync` keeps it too. -/
theorem master_invariant_witness :
    (∀ e ∈ NixieCircuitCollection.initAsync []
        [⟨1, "a", 1, none, none⟩, ⟨2, "b", 0, none, none⟩], e.circuit.master = 1) ∧
    (∀ e ∈ NixieCircuitCollection.setCircuitAsync [⟨⟨1, "a", 1, none, none⟩⟩]
        ⟨2, "b", 0, none, none⟩ (0 : Nat), e.circuit.master = 1) ∧
    (∀ e ∈ (NixieCircuitCollection.initCircuitAsync [⟨⟨1, "a", 1, none, none⟩⟩]
        ⟨3, "c", 1, none, none⟩).1, e.circuit.master = 1) := by
  refine ⟨?_, ?_, ?_⟩
  · exact (master_invariant Nat [] [⟨1, "a", 1, none, none⟩, ⟨2, "b", 0, none, none⟩]
      [] ⟨0, "z", 0, none, none⟩ 0).1
  · exact (master_invariant Nat [] [] [⟨⟨1, "a", 1, none, none⟩⟩]
      ⟨2, "b", 0, none, none⟩ 0).2.1 (by decide)
  · exact (master_invariant Nat [] [] [⟨⟨1, "a", 1, none, none⟩⟩]
      ⟨3, "c", 1, none, none⟩ 0).2.2 rfl (by decide)

/-- C8: `initAsync` discards the prior collection and yields exactly one unit
per master-flagged config entry, in list order; in particular a 5-entry list
with 2 master entries yields a collection of length 2. -/
theorem collection_init_spec (prior : NixieCircuitCollection) (circuits : List Circuit) :
    NixieCircuitCollection.initAsync prior circuits =
      (circuits.filter (fun c => c.master == 1)).map (fun c => ⟨c⟩) ∧
    (NixieCircuitCollection.initAsync prior
      [⟨1, "a", 1, none, none⟩, ⟨2, "b", 0, none, none⟩, ⟨3, "c", 1, none, none⟩,
        ⟨4, "d", 0, none, none⟩, ⟨5, "e", 0, none, none⟩]).length = 2 := by
  constructor
  · unfold NixieCircuitCollection.initAsync
    rw [initAsync_foldl_eq]
    simp
  · rfl

/-- Whether a unit's `closeAsync` rejects, given the put oracle and that
unit's live-state lookup outcome. -/
def NixieCircuit.closeFails (put : PutService)
    (lookups : NixieCircuit → Except String ICircuitState) (c : NixieCircuit) : Bool :=
  match (NixieCircuit.closeAsync put (lookups c) c).2 with
  | .ok _ => false
  | .error _ => true

/-- One `this.splice(i, 1)` on the collection. -/
def spliceAt (l : List NixieCircuit) (i : Nat) : List NixieCircuit :=
  l.take i ++ l.drop (i + 1)

/-- The backward loop of the collection's `closeAsync` (`Circuit.ts:56-61`),
with `i + 1` as the number of indices still to visit: index `i` is closed,
spliced out if the close resolved, and kept (after logging) if it rejected;
then the loop moves to `i - 1`. -/
def closeLoop (fails : NixieCircuit → Bool) : Nat → List NixieCircuit → List NixieCircuit
  | 0, l => l
  | i + 1, l =>
      match l[i]? with
      | none => closeLoop fails i l
      | some u => closeLoop fails i (if fails u then l else spliceAt l i)

/-- Embedding of `NixieCircuitCollection.closeAsync` (`Circuit.ts:54-64`): runs the
backward loop from `length - 1`; each unit's rejection is caught inside the
loop and the outer catch swallows anything else, so the call always
resolves. -/
def NixieCircuitCollection.closeAsync (put : PutService)
    (lookups : NixieCircuit → Except String ICircuitState) (l : NixieCircuitCollection) :
    NixieCircuitCollection × Except String Unit :=
  (closeLoop (NixieCircuit.closeFails put lookups) l.length l, .ok ())

/-- The backward loop over `l ++ r`, started with `l.length` indices to visit,
never touches `r` and keeps exactly the failing units of `l`. -/
theorem closeLoop_append (fails : NixieCircuit → Bool) (l : List NixieCircuit) :
    ∀ r, closeLoop fails l.length (l ++ r) = l.filter fails ++ r := by
  induction l using List.reverseRecOn with
  | nil =>
      intro r
      simp [closeLoop]
  | append_singleton l' a ih =>
      intro r
      have hlen : (l' ++ [a]).length = l'.length + 1 := by simp
      rw [hlen, List.append_assoc]
      have hget : (l' ++ ([a] ++ r))[l'.length]? = some a := by
        rw [List.getElem?_append_right (Nat.le_refl _)]
        simp
      rw [closeLoop, hget]
      dsimp only
      by_cases hf : fails a = true
      · rw [if_pos hf]
        rw [ih ([a] ++ r)]
        simp [List.filter_append, hf]
      · rw [if_neg hf]
        have hsplice : spliceAt (l' ++ ([a] ++ r)) l'.length = l' ++ r := by
          unfold spliceAt
          rw [← List.append_assoc, ← hlen, List.drop_left, List.append_assoc, List.take_left]
        rw [hsplice, ih r]
        simp [List.filter_append, Bool.of_not_eq_true hf]

/-- C6: the collection's `closeAsync` visits every unit from the tail
backward, splices out each unit whose close resolved and keeps (after
logging) each unit whose close rejected — so exactly the units whose close
rejected remain, in order — and the call itself always resolves. -/
theorem collection_close_spec (put : PutService)
    (lookups : NixieCircuit → Except String ICircuitState) (l : NixieCircuitCollection) :
    NixieCircuitCollection.closeAsync put lookups l =
      (l.filter (NixieCircuit.closeFails put lookups), .ok ()) := by
  unfold NixieCircuitCollection.closeAsync
  have h := closeLoop_append (NixieCircuit.closeFails put lookups) l []
  simpa using h

/-- A pending JS timer: its handle and the delay it was armed with. -/
structure PendingTimer where
  tid : Nat
  delay : Nat
deriving Repr, DecidableEq

/-- The timer environment owned by the node event loop: the pending timers
(in arming order) and a fresh-handle counter. -/
structure TimerWorld where
  pending : List PendingTimer
  nextId : Nat
deriving Repr, DecidableEq

/-- Embedding of `clearTimeout(handle)`: cancels the pending timer with that handle;
`clearTimeout(null)` does nothing. -/
def clearTimeoutW (w : TimerWorld) (h : Option Nat) : TimerWorld :=
  match h with
  | none => w
  | some i => { w with pending := w.pending.filter (fun t => !(t.tid == i)) }

/-- Embedding of `setTimeout(cb, delay)`: arms a fresh pending timer and returns its
handle. -/
def setTimeoutW (w : TimerWorld) (delay : Nat) : TimerWorld × Nat :=
  ({ pending := w.pending ++ [⟨w.nextId, delay⟩], nextId := w.nextId + 1 }, w.nextId)

/-- The timer-owning fields of `NixieCircuitCollection`: `pollingInterval`
(initialized to 2000, `Circuit.ts:13`) and the `_pollTimer` handle (`null`,
i.e. `none`, `Circuit.ts:14`); an unset/zero interval is the `0` value. -/
structure PollState where
  pollingInterval : Nat
  pollTimer : Option Nat
deriving Repr, DecidableEq

/-- Embedding of `NixieCircuitCollection.pollCircuitsAsync` (`Circuit.ts:76-84`) with the
outcome of the poll pass abstracted as `pass`.  The guard
`typeof this._pollTimer !== 'undefined' || this._pollTimer` is always true
(`typeof null` is `'object'`), so the pending timer is always cleared and the
handle nulled; the `try` body of the source then does nothing further
(`let success = false`), which is the `pass = .ok ()` instance, while
`pass = .error e` models a fault-revalidation pass — the hook point the spec
names there — that throws and is logged and returned as `Promise.reject` by
the catch; the `finally` block arms exactly one fresh timer for
`this.pollingInterval || 10000` milliseconds regardless of `pass`. -/
def pollCircuitsWith (pass : Except String Unit) (s : PollState) (w : TimerWorld) :
    PollState × TimerWorld × Except String Unit :=
  let w1 := clearTimeoutW w s.pollTimer
  let ivl := if s.pollingInterval == 0 then 10000 else s.pollingInterval
  let (w2, h) := setTimeoutW w1 ivl
  ({ s with pollTimer := some h }, w2, pass)

/-- The literal source instance of the poll tick: its `try` body never
throws. -/
def NixieCircuitCollection.pollCircuitsAsync (s : PollState) (w : TimerWorld) :
    PollState × TimerWorld × Except String Unit :=
  pollCircuitsWith (.ok ()) s w

/-- A world whose pending timers are exactly the one the collection's
`_pollTimer` handle names (the collection owns its single poll timer). -/
def PollState.ownsWorld (s : PollState) (w : TimerWorld) : Prop :=
  w.pending.map PendingTimer.tid = s.pollTimer.toList

/-- C5: from any owning state — whether or not a poll timer was pending — and
for every pass outcome, throwing included, one tick leaves exactly one pending
timer: a fresh one, armed for `pollingInterval` ms (10000 when that is
unset/zero), with the handle stored and the prior timer gone; the pass
outcome is returned unchanged (a rejection still reschedules). -/
theorem poll_tick_reschedules (pass : Except String Unit) (s : PollState)
    (w : TimerWorld) (hown : s.ownsWorld w) :
    (pollCircuitsWith pass s w).2.1.pending =
      [⟨w.nextId, if s.pollingInterval == 0 then 10000 else s.pollingInterval⟩] ∧
    (pollCircuitsWith pass s w).1 =
      { s with pollTimer := some w.nextId } ∧
    (pollCircuitsWith pass s w).2.1.nextId = w.nextId + 1 ∧
    (pollCircuitsWith pass s w).2.2 = pass := by
  have hclear : (clearTimeoutW w s.pollTimer).pending = [] := by
    unfold PollState.ownsWorld at hown
    cases hp : s.pollTimer with
    | none =>
        rw [hp] at hown
        simp only [Option.toList] at hown
        unfold clearTimeoutW
        exact List.map_eq_nil_iff.mp hown
    | some i =>
        rw [hp] at hown
        cases hw : w.pending with
        | nil => simp [clearTimeoutW, hw]
        | cons t rest =>
            rw [hw] at hown
            simp only [List.map_cons, Option.toList] at hown
            have htid : t.tid = i := (List.cons_eq_cons.mp hown).1
            have hrest : rest = [] := List.map_eq_nil_iff.mp (List.cons_eq_cons.mp hown).2
            unfold clearTimeoutW
            simp [hw, hrest, htid]
  have hnext : (clearTimeoutW w s.pollTimer).nextId = w.nextId := by
    unfold clearTimeoutW
    cases s.pollTimer <;> rfl
  refine ⟨?_, ?_, ?_, ?_⟩
  · unfold pollCircuitsWith setTimeoutW
    simp [hclear, hnext]
  · unfold pollCircuitsWith setTimeoutW
    simp only []
    rw [hnext]
  · unfold pollCircuitsWith setTimeoutW
    simp [hnext]
  · rfl

/-- Witness for C5: a concrete state with one pending timer (handle 3) and
interval 2000, hit by a tick whose pass throws, ends with exactly the fresh
timer 7 armed for 2000 ms and the rejection returned; the same state with a
zero interval arms the fresh timer for 10000 ms. -/
theorem poll_tick_reschedules_witness :
    ((pollCircuitsWith (.error ("pass blew up")) ⟨2000, some 3⟩ ⟨[⟨3, 2000⟩], 7⟩).2.1.pending =
      [⟨7, 2000⟩] ∧
    (pollCircuitsWith (.error ("pass blew up")) ⟨2000, some 3⟩ ⟨[⟨3, 2000⟩], 7⟩).1 =
      ⟨2000, some 7⟩ ∧
    (pollCircuitsWith (.error ("pass blew up")) ⟨2000, some 3⟩ ⟨[⟨3, 2000⟩], 7⟩).2.1.nextId = 8 ∧
    (pollCircuitsWith (.error ("pass blew up")) ⟨2000, some 3⟩ ⟨[⟨3, 2000⟩], 7⟩).2.2 =
      .error ("pass blew up")) ∧
    (pollCircuitsWith (.ok ()) ⟨0, none⟩ ⟨[], 0⟩).2.1.pending = [⟨0, 10000⟩] := by
  constructor
  · have h := poll_tick_reschedules (.error ("pass blew up")) ⟨2000, some 3⟩
      ⟨[⟨3, 2000⟩], 7⟩ rfl
    simpa using h
  · have h := poll_tick_reschedules (.ok ()) ⟨0, none⟩ ⟨[], 0⟩ rfl
    simpa using h.1
